import Mathlib

/-!
Admin login form (`src/Pages/adminLogin/login.jsx`).

A shallow embedding of the `Login` component: its validators, the
`handleSubmit` handler with the effects it has on the browser (network,
`localStorage`, toasts, timers, console), and the event loop of the
rendered form.

JavaScript strings are sequences of UTF-16 code units; `String.length`,
`String.prototype.trim` and a regular expression without the `u` flag all
work on code units, so a string is a `List Nat` of code units here.
-/

namespace Login

/-! ## JavaScript strings -/

/-- A JavaScript string: its UTF-16 code units. -/
abbrev JSString := List Nat

/-- UTF-16 encoding of one Unicode scalar value. -/
def utf16 (c : Char) : List Nat :=
  if c.toNat < 65536 then [c.toNat]
  else [55296 + (c.toNat - 65536) / 1024, 56320 + (c.toNat - 65536) % 1024]

/-- The JavaScript string written by a literal. -/
def js (s : String) : JSString := s.toList.flatMap utf16

/-- ECMAScript `WhiteSpace` or `LineTerminator` code unit: what `\s` matches
and what `trim` strips. -/
def isWhiteSpace (c : Nat) : Bool :=
  c == 9 || c == 10 || c == 11 || c == 12 || c == 13 || c == 32 || c == 160 ||
  c == 5760 || (8192 ≤ c && c ≤ 8202) || c == 8232 || c == 8233 || c == 8239 ||
  c == 8287 || c == 12288 || c == 65279

/-- The method `String.prototype.trimStart`. -/
def trimStart (s : JSString) : JSString := s.dropWhile isWhiteSpace

/-- The method `String.prototype.trimEnd`. -/
def trimEnd (s : JSString) : JSString := (s.reverse.dropWhile isWhiteSpace).reverse

/-- The method `String.prototype.trim`. -/
def trim (s : JSString) : JSString := trimEnd (trimStart s)

/-! ## Regular expressions

The fragment of ECMAScript patterns that `emailRegex` is written in: one
alternative made of assertions, atoms and atoms under `+`.  The matcher is
the backtracking matcher of the language specification, in continuation
style: a continuation receives the end index and the rest of the input. -/

/-- A member of a character class. -/
inductive ClassItem where
  | space
  | char (c : Nat)
  deriving DecidableEq

/-- Does the code unit belong to the class member? -/
def ClassItem.test : ClassItem → Nat → Bool
  | .space, c => isWhiteSpace c
  | .char d, c => c == d

/-- An atom consumes exactly one code unit. -/
inductive Atom where
  | char (c : Nat)
  | cls (negated : Bool) (items : List ClassItem)
  deriving DecidableEq

/-- Does the atom accept the code unit? -/
def Atom.test : Atom → Nat → Bool
  | .char d, c => c == d
  | .cls negated items, c => (items.any fun i => i.test c) != negated

/-- A term of an alternative. -/
inductive Term where
  | assertBegin
  | assertEnd
  | atom (a : Atom)
  | atomPlus (a : Atom)
  deriving DecidableEq

/-- A continuation of the matcher. -/
abbrev Cont := Nat → List Nat → Bool

/-- Greedy `a+`: one code unit accepted by `a`, then either more of them or
the continuation. -/
def plusLoop (a : Atom) (k : Cont) : Nat → List Nat → Bool
  | _, [] => false
  | pos, c :: cs => a.test c && (plusLoop a k (pos + 1) cs || k (pos + 1) cs)

/-- The matcher of one term. -/
def Term.run : Term → Cont → Cont
  | .assertBegin, k, pos, rest => pos == 0 && k pos rest
  | .assertEnd, k, pos, rest => rest.isEmpty && k pos rest
  | .atom _, _, _, [] => false
  | .atom a, k, pos, c :: cs => a.test c && k (pos + 1) cs
  | .atomPlus a, k, pos, rest => plusLoop a k pos rest

/-- The matcher of an alternative: its terms in sequence. -/
def runTerms : List Term → Cont → Cont
  | [], k => k
  | t :: ts, k => t.run (runTerms ts k)

/-- Is there a match starting at index `pos`, where `rest` is the input from
`pos` on? -/
def matchAt (p : List Term) (pos : Nat) (rest : List Nat) : Bool :=
  runTerms p (fun _ _ => true) pos rest

/-- Try each start index from `pos` on, as `RegExpBuiltinExec` does for a
pattern without the sticky flag. -/
def scanFrom (p : List Term) : Nat → List Nat → Bool
  | pos, [] => matchAt p pos []
  | pos, c :: cs => matchAt p pos (c :: cs) || scanFrom p (pos + 1) cs

/-- The method `RegExp.prototype.test` for a pattern without flags. -/
def regexTest (p : List Term) (s : JSString) : Bool := scanFrom p 0 s

/-! ## The component: validators -/

/-- The class `[^\s@]`. -/
def notSpaceAt : Atom := .cls true [.space, .char 64]

/-- The pattern of `const emailRegex = /^[^\s@]+@[^\s@]+\.[^\s@]+$/`. -/
def emailRegex : List Term :=
  [.assertBegin, .atomPlus notSpaceAt, .atom (.char 64), .atomPlus notSpaceAt,
   .atom (.char 46), .atomPlus notSpaceAt, .assertEnd]

/-- The function `validateEmail` (login.jsx, lines 21-24). -/
def validateEmail (email : JSString) : Bool := regexTest emailRegex email

/-! ## JavaScript values

The values a parsed response body is made of.  A number is carried by the
three things the component can observe of it: its `ToString` text, whether
it is falsy (`+0`, `-0`, `NaN`) and whether it is finite. -/

/-- A JavaScript number, by its observations. -/
structure JSNumber where
  text : JSString
  falsy : Bool
  finite : Bool

/-- A JavaScript value.  The fields of an object are its own enumerable
properties in enumeration order. -/
inductive JSVal where
  | undefined
  | null
  | bool (b : Bool)
  | num (n : JSNumber)
  | str (s : JSString)
  | arr (items : List JSVal)
  | obj (fields : List (JSString × JSVal))

/-- The abstract operation `ToBoolean`. -/
def toBoolean : JSVal → Bool
  | .undefined => false
  | .null => false
  | .bool b => b
  | .num n => !n.falsy
  | .str s => !s.isEmpty
  | .arr _ => true
  | .obj _ => true

/-- Is the value `undefined` or `null`? -/
def isNullish : JSVal → Bool
  | .undefined => true
  | .null => true
  | _ => false

/-- Own property lookup in a field list. -/
def lookupField (key : JSString) : List (JSString × JSVal) → JSVal
  | [] => .undefined
  | (k, v) :: rest => if k = key then v else lookupField key rest

/-- Property read `v.key` on a value that is not nullish, for the keys the
component reads (`data`, `success`, `user`, `name`, `accessToken`,
`refreshToken`, `response`, `message`, `error`): none of them is inherited
from a prototype, so only an object can have one. -/
def getProp (v : JSVal) (key : JSString) : JSVal :=
  match v with
  | .obj fields => lookupField key fields
  | _ => .undefined

/-- Property read `v.key`: `none` stands for the `TypeError` thrown when
`v` is `undefined` or `null`. -/
def member (v : JSVal) (key : JSString) : Option JSVal :=
  if isNullish v then none else some (getProp v key)

/-- Optional chaining `v?.key`. -/
def optMember (v : JSVal) (key : JSString) : JSVal :=
  if isNullish v then .undefined else getProp v key

/-- Logical or: `a || b`. -/
def jsOr (a b : JSVal) : JSVal := if toBoolean a then a else b

/-- Join strings with a separator, as `Array.prototype.join` does. -/
def joinWith (sep : JSString) : List JSString → JSString
  | [] => []
  | [x] => x
  | x :: y :: rest => x ++ sep ++ joinWith sep (y :: rest)

mutual
/-- The abstract operation `ToString`. -/
def toStr : JSVal → JSString
  | .undefined => js "undefined"
  | .null => js "null"
  | .bool true => js "true"
  | .bool false => js "false"
  | .num n => n.text
  | .str s => s
  | .arr items => joinWith [44] (toStrItems items)
  | .obj _ => js "[object Object]"
/-- The texts `Array.prototype.join` joins: empty for `undefined` and
`null` elements. -/
def toStrItems : List JSVal → List JSString
  | [] => []
  | v :: vs => (if isNullish v then [] else toStr v) :: toStrItems vs
end

/-- A hexadecimal digit in lower case. -/
def hexDigit (n : Nat) : Nat := if n < 10 then 48 + n else 87 + n

/-- The escape `\uXXXX` of a code unit. -/
def unicodeEscape (c : Nat) : JSString :=
  [92, 117, hexDigit (c / 4096 % 16), hexDigit (c / 256 % 16), hexDigit (c / 16 % 16),
   hexDigit (c % 16)]

/-- The body of `QuoteJSONString`: escapes for the quote, the backslash, the
control characters and lone surrogates. -/
def quoteUnits : List Nat → List Nat
  | [] => []
  | [c] =>
    if c = 8 then [92, 98] else if c = 9 then [92, 116] else if c = 10 then [92, 110]
    else if c = 12 then [92, 102] else if c = 13 then [92, 114]
    else if c = 34 then [92, 34] else if c = 92 then [92, 92]
    else if c < 32 ∨ (55296 ≤ c ∧ c ≤ 57343) then unicodeEscape c
    else [c]
  | c :: d :: rest =>
    if c = 8 then [92, 98] ++ quoteUnits (d :: rest)
    else if c = 9 then [92, 116] ++ quoteUnits (d :: rest)
    else if c = 10 then [92, 110] ++ quoteUnits (d :: rest)
    else if c = 12 then [92, 102] ++ quoteUnits (d :: rest)
    else if c = 13 then [92, 114] ++ quoteUnits (d :: rest)
    else if c = 34 then [92, 34] ++ quoteUnits (d :: rest)
    else if c = 92 then [92, 92] ++ quoteUnits (d :: rest)
    else if c < 32 then unicodeEscape c ++ quoteUnits (d :: rest)
    else if 55296 ≤ c ∧ c ≤ 56319 ∧ 56320 ≤ d ∧ d ≤ 57343 then c :: d :: quoteUnits rest
    else if 55296 ≤ c ∧ c ≤ 57343 then unicodeEscape c ++ quoteUnits (d :: rest)
    else c :: quoteUnits (d :: rest)

/-- The abstract operation `QuoteJSONString`. -/
def quoteJSON (s : JSString) : JSString := [34] ++ quoteUnits s ++ [34]

mutual
/-- The call `JSON.stringify(v)` with no replacer and no indentation; `none` is the
result `undefined`. -/
def jsonStringify : JSVal → Option JSString
  | .undefined => none
  | .null => some (js "null")
  | .bool true => some (js "true")
  | .bool false => some (js "false")
  | .num n => some (if n.finite then n.text else js "null")
  | .str s => some (quoteJSON s)
  | .arr items => some ([91] ++ joinWith [44] (jsonItems items) ++ [93])
  | .obj fields => some ([123] ++ joinWith [44] (jsonFields fields) ++ [125])
/-- The serialised elements of an array: `null` for what has no JSON text. -/
def jsonItems : List JSVal → List JSString
  | [] => []
  | v :: vs => (jsonStringify v).getD (js "null") :: jsonItems vs
/-- The serialised properties of an object: one `key:value` for each
property whose value has a JSON text. -/
def jsonFields : List (JSString × JSVal) → List JSString
  | [] => []
  | (k, v) :: rest =>
    match jsonStringify v with
    | none => jsonFields rest
    | some t => (quoteJSON k ++ [58] ++ t) :: jsonFields rest
end

/-- The value of the expression `JSON.stringify(v)`. -/
def jsonStringifyVal (v : JSVal) : JSVal :=
  match jsonStringify v with
  | none => .undefined
  | some t => .str t

/-! ## The browser around the component -/

/-- The two kinds of toast the component raises. -/
inductive ToastKind where
  | success
  | error
  deriving DecidableEq

/-- A call of `toast.success` or `toast.error`: the message passed and the
`duration` option (the position and style options are presentational). -/
structure Toast where
  kind : ToastKind
  message : JSVal
  duration : Nat

/-- What a timer callback of the component does. -/
inductive Effect where
  | navigate (path : JSString)
  | reload
  deriving DecidableEq

/-- A call of `setTimeout`. -/
structure Timer where
  callback : List Effect
  delay : Nat
  deriving DecidableEq

/-- A call of `axios.post(url, body)`. -/
structure Request where
  url : JSString
  body : JSVal

/-- The value of `response` after the `await`: only `response.data` is read. -/
structure Response where
  data : JSVal

/-- The value caught by `catch (error)`: the `TypeError` of a property read
on `undefined` or `null`, or the error `axios` rejects with, whose
`response` property is `undefined` when no response was received. -/
inductive JSError where
  | typeError
  | axiosError (response : JSVal)

/-- The property `error.response`. -/
def JSError.response : JSError → JSVal
  | .typeError => .undefined
  | .axiosError r => r

/-- How the promise of `axios.post` settles. -/
inductive Outcome where
  | resolved (response : Response)
  | rejected (error : JSError)

/-- What the component can do to its surroundings: `localStorage`, the
toasts raised, the POSTs issued, the timers set, the errors logged to the
console, the routes navigated to and the number of page reloads. -/
structure World where
  storage : List (JSString × JSString)
  toasts : List Toast
  requests : List Request
  timers : List Timer
  console : List JSError
  navigations : List JSString
  reloads : Nat

/-- The call `localStorage.getItem(key)`. -/
def getItem (storage : List (JSString × JSString)) (key : JSString) : Option JSString :=
  match storage with
  | [] => none
  | (k, v) :: rest => if k = key then some v else getItem rest key

/-- The call `localStorage.setItem(key, value)` on the store: the entry of `key` is
replaced, or added at the end. -/
def setItemIn (storage : List (JSString × JSString)) (key value : JSString) :
    List (JSString × JSString) :=
  match storage with
  | [] => [(key, value)]
  | (k, v) :: rest => if k = key then (key, value) :: rest else (k, v) :: setItemIn rest key value

/-- The call `localStorage.setItem(key, value)`; the value is converted by `ToString`. -/
def World.setItem (w : World) (key : JSString) (value : JSVal) : World :=
  { w with storage := setItemIn w.storage key (toStr value) }

/-- The call `toast.success(message, options)` or `toast.error(message, options)`. -/
def World.toast (w : World) (kind : ToastKind) (message : JSVal) (duration : Nat) : World :=
  { w with toasts := w.toasts ++ [{ kind := kind, message := message, duration := duration }] }

/-- The call `setTimeout(callback, delay)`. -/
def World.setTimeout (w : World) (callback : List Effect) (delay : Nat) : World :=
  { w with timers := w.timers ++ [{ callback := callback, delay := delay }] }

/-- The call `console.error('Login error:', error)`. -/
def World.consoleError (w : World) (error : JSError) : World :=
  { w with console := w.console ++ [error] }

/-- The toasts of one kind. -/
def World.toastsOf (w : World) (kind : ToastKind) : List Toast :=
  w.toasts.filter fun t => t.kind = kind

/-! ## The component -/

/-- The state `formData`. -/
structure FormData where
  email : JSString
  password : JSString
  deriving DecidableEq

/-- The state `errors`: an object with at most the keys `email` and
`password`. -/
structure Errors where
  email : Option JSString
  password : Option JSString
  deriving DecidableEq

/-- The four `useState` cells of `Login`. -/
structure State where
  formData : FormData
  errors : Errors
  showPassword : Bool
  isLoading : Bool
  deriving DecidableEq

/-- The `name` of an input of the form. -/
inductive Field where
  | email
  | password
  deriving DecidableEq

/-- The state at the first render (login.jsx, lines 12-18). -/
def initialState : State :=
  { formData := { email := [], password := [] }, errors := { email := none, password := none },
    showPassword := false, isLoading := false }

/-- The read `errors[name]`. -/
def Errors.get (e : Errors) : Field → Option JSString
  | .email => e.email
  | .password => e.password

/-- The handler `handleChange` (login.jsx, lines 27-41). -/
def handleChange (name : Field) (value : JSString) (st : State) : State :=
  let formData : FormData :=
    match name with
    | .email => { st.formData with email := value }
    | .password => { st.formData with password := value }
  let errors : Errors :=
    match st.errors.get name with
    | none => st.errors
    | some msg =>
      if msg.isEmpty then st.errors
      else
        match name with
        | .email => { st.errors with email := some [] }
        | .password => { st.errors with password := some [] }
  { st with formData := formData, errors := errors }

/-- The object `newErrors` built by `validateForm` (login.jsx, lines 45-57). -/
def newErrors (formData : FormData) : Errors :=
  { email :=
      if (trim formData.email).isEmpty then some (js "Email is required")
      else if !validateEmail formData.email then some (js "Please enter a valid email address")
      else none
    password :=
      if formData.password.isEmpty then some (js "Password is required")
      else if formData.password.length < 6 then some (js "Password must be at least 6 characters")
      else none }

/-- The test `Object.keys(newErrors).length === 0`. -/
def Errors.noKeys (e : Errors) : Bool := e.email.isNone && e.password.isNone

/-- The function `validateForm` (login.jsx, lines 44-61): the state after `setErrors` and
the value returned. -/
def validateForm (st : State) : State × Bool :=
  ({ st with errors := newErrors st.formData }, (newErrors st.formData).noKeys)

/-- The body of the `try` block after the `await` (login.jsx, lines 80-104):
the world it leaves and the error it throws, if any. -/
def tryBody (response : Response) (w : World) : World × Option JSError :=
  if toBoolean response.data && toBoolean (getProp response.data (js "success")) then
    let data := getProp response.data (js "data")
    match member data (js "user") with
    | none => (w, some .typeError)
    | some user =>
      match member user (js "accessToken") with
      | none => (w, some .typeError)
      | some accessToken =>
        let w1 := w.setItem (js "accessToken") accessToken
        let w2 := w1.setItem (js "refreshToken") (getProp user (js "refreshToken"))
        let w3 := w2.setItem (js "userdata") (jsonStringifyVal data)
        let w4 := w3.toast .success
          (.str (js "Welcome back, " ++ toStr (getProp user (js "name")) ++ js "!")) 3000
        (w4.setTimeout [.navigate (js "/Home"), .reload] 1000, none)
  else (w, none)

/-- The fallback text of the `catch` block. -/
def fallbackMessage : JSString :=
  js "Login failed. Please check your credentials and try again."

/-- The value `errorMessage` (login.jsx, lines 107-109). -/
def errorMessage (error : JSError) : JSVal :=
  jsOr
    (jsOr (optMember (optMember error.response (js "data")) (js "message"))
      (optMember (optMember error.response (js "data")) (js "error")))
    (.str fallbackMessage)

/-- The `catch` block (login.jsx, lines 105-122). -/
def catchBlock (error : JSError) (w : World) : World :=
  (w.toast .error (errorMessage error) 4000).consoleError error

/-- The request of login.jsx, lines 74-77. -/
def loginRequest (baseUrl : JSString) (formData : FormData) : Request :=
  { url := baseUrl ++ js "/api/v1/user/login"
    body := .obj [(js "email", .str formData.email), (js "password", .str formData.password)] }

/-- The part of `handleSubmit` that runs up to the `await` (login.jsx, lines
64-77): the state, the world, and the request now in flight, if any.
`baseUrl` is imported from `utils/config`. -/
def handleSubmitStart (baseUrl : JSString) (st : State) (w : World) :
    State × World × Option Request :=
  if (validateForm st).2 then
    ({ (validateForm st).1 with isLoading := true },
     { w with requests := w.requests ++ [loginRequest baseUrl st.formData] },
     some (loginRequest baseUrl st.formData))
  else ((validateForm st).1, w, none)

/-- The part of `handleSubmit` that runs once the promise has settled
(login.jsx, lines 79-125): the rest of `try`, then `catch` if something was
thrown, then `finally`. -/
def handleSubmitResume (o : Outcome) (st : State) (w : World) : State × World :=
  let tried : World × Option JSError :=
    match o with
    | .resolved response => tryBody response w
    | .rejected error => (w, some error)
  let w1 : World :=
    match tried.2 with
    | none => tried.1
    | some error => catchBlock error tried.1
  ({ st with isLoading := false }, w1)

/-- A whole run of `handleSubmit` (login.jsx, lines 64-126), where `net`
tells how the POST settles. -/
def handleSubmit (baseUrl : JSString) (net : Request → Outcome) (st : State) (w : World) :
    State × World :=
  match handleSubmitStart baseUrl st w with
  | (st1, w1, none) => (st1, w1)
  | (st1, w1, some request) => handleSubmitResume (net request) st1 w1

/-! ## The rendered form and its events -/

/-- The `disabled` attributes of the last render: the two inputs, the
show-password button and the submit button all carry `disabled={isLoading}`
(login.jsx, lines 176, 207, 213, 232). -/
structure View where
  emailDisabled : Bool
  passwordDisabled : Bool
  toggleDisabled : Bool
  submitDisabled : Bool

/-- The attributes rendered from a state. -/
def render (st : State) : View :=
  { emailDisabled := st.isLoading, passwordDisabled := st.isLoading,
    toggleDisabled := st.isLoading, submitDisabled := st.isLoading }

/-- The page: the component state, the world, the POSTs in flight, and
whether the document is still loaded. -/
structure Page where
  state : State
  world : World
  pending : List Request
  loaded : Bool

/-- What can happen to the page. -/
inductive Event where
  | change (name : Field) (value : JSString)
  | toggleShowPassword
  | submit
  | settle (o : Outcome)
  | timeout

/-- Is the input of a field disabled? -/
def View.inputDisabled (v : View) : Field → Bool
  | .email => v.emailDisabled
  | .password => v.passwordDisabled

/-- One effect of a timer callback. -/
def runEffect (p : Page) : Effect → Page
  | .navigate path => { p with world := { p.world with navigations := p.world.navigations ++ [path] } }
  | .reload =>
    { p with world := { p.world with reloads := p.world.reloads + 1 }, pending := [], loaded := false }

/-- One event.  The browser delivers no event from a disabled control, and a
form whose submit button is disabled is not submitted; a reload unloads the
document, which drops the requests in flight, and nothing reaches the
component afterwards.  The browser's own check of the `type="email"` input,
which can only hold a submit event back, is left out. -/
def step (baseUrl : JSString) (p : Page) : Event → Page
  | .change name value =>
    if !p.loaded || (render p.state).inputDisabled name then p
    else { p with state := handleChange name value p.state }
  | .toggleShowPassword =>
    if !p.loaded || (render p.state).toggleDisabled then p
    else { p with state := { p.state with showPassword := !p.state.showPassword } }
  | .submit =>
    if !p.loaded || (render p.state).submitDisabled then p
    else
      { p with
        state := (handleSubmitStart baseUrl p.state p.world).1
        world := (handleSubmitStart baseUrl p.state p.world).2.1
        pending := p.pending ++ (handleSubmitStart baseUrl p.state p.world).2.2.toList }
  | .settle o =>
    if !p.loaded then p
    else
      match p.pending with
      | [] => p
      | _ :: rest =>
        { p with
          state := (handleSubmitResume o p.state p.world).1
          world := (handleSubmitResume o p.state p.world).2
          pending := rest }
  | .timeout =>
    if !p.loaded then p
    else
      match p.world.timers with
      | [] => p
      | t :: rest =>
        t.callback.foldl runEffect { p with world := { p.world with timers := rest } }

/-- The page when the component has just been mounted, over any store. -/
def initialPage (storage : List (JSString × JSString)) : Page :=
  { state := initialState
    world := { storage := storage, toasts := [], requests := [], timers := [], console := [],
               navigations := [], reloads := 0 }
    pending := [], loaded := true }

/-- The page after a sequence of events. -/
def run (baseUrl : JSString) (p : Page) (events : List Event) : Page :=
  events.foldl (step baseUrl) p

/-! ## The wording of the specification and the scenarios of its tests -/

/-- A code unit that is neither whitespace nor `@`. -/
def plainUnit (c : Nat) : Prop := isWhiteSpace c = false ∧ c ≠ 64

/-- The shape `local@domain.tld`: `s = l ++ "@" ++ d ++ "." ++ t` with `l`,
`d` and `t` non-empty and free of whitespace and of `@`. -/
def EmailShape (s : JSString) : Prop :=
  ∃ l d t : JSString, s = l ++ [64] ++ d ++ [46] ++ t ∧ l ≠ [] ∧ d ≠ [] ∧ t ≠ [] ∧
    (∀ c ∈ l, plainUnit c) ∧ (∀ c ∈ d, plainUnit c) ∧ (∀ c ∈ t, plainUnit c)

/-- The part of a string after its first `@`. -/
def afterAt (s : JSString) : JSString := (s.dropWhile fun c => c != 64).tail

/-- The second wording of the shape: no whitespace, exactly one `@`, which is
not the first code unit, and after it a `.` that is neither first nor last. -/
def EmailShapeAlt (s : JSString) : Prop :=
  (∀ c ∈ s, isWhiteSpace c = false) ∧ s.count 64 = 1 ∧ s.head? ≠ some 64 ∧
    ∃ i, 0 < i ∧ i + 1 < (afterAt s).length ∧ (afterAt s)[i]? = some 46

/-- The response of the specification's success scenario. -/
def aliceBody : JSVal :=
  .obj [(js "success", .bool true),
        (js "data", .obj [(js "user", .obj [(js "name", .str (js "Alice")),
          (js "accessToken", .str (js "A")), (js "refreshToken", .str (js "R"))])])]

/-- A form filled with a well-formed email and a password of seven units. -/
def filledState : State :=
  { initialState with formData := { email := js "user@example.com", password := js "secret1" } }

/-- A world in which nothing has happened yet and the store is empty. -/
def freshWorld : World := (initialPage []).world

/-- The invariant of the page: while the document is loaded, one POST is in
flight when `isLoading` is set and none otherwise; none once it is unloaded. -/
def PageInv (p : Page) : Prop :=
  (p.loaded = true → p.pending.length = if p.state.isLoading then 1 else 0) ∧
  (p.loaded = false → p.pending = [])

/-! ## Lemmas and theorems -/

theorem notSpaceAt_test (c : Nat) : notSpaceAt.test c = true ↔ plainUnit c := by
  unfold notSpaceAt Atom.test plainUnit
  simp [ClassItem.test]

theorem plusLoop_iff (a : Atom) (k : Cont) (s : List Nat) (pos : Nat) :
    plusLoop a k pos s = true ↔
      ∃ l r, l ≠ [] ∧ s = l ++ r ∧ (∀ c ∈ l, a.test c = true) ∧ k (pos + l.length) r = true := by
  induction s generalizing pos with
  | nil =>
    simp only [plusLoop, Bool.false_eq_true, false_iff]
    rintro ⟨l, r, hl, hs, -⟩
    cases l with
    | nil => exact hl rfl
    | cons x xs => simp at hs
  | cons c cs ih =>
    simp only [plusLoop, Bool.and_eq_true, Bool.or_eq_true]
    constructor
    · rintro ⟨hc, h | h⟩
      · obtain ⟨l, r, -, hs, hall, hk⟩ := (ih (pos + 1)).1 h
        refine ⟨c :: l, r, by simp, by simp [hs], ?_, ?_⟩
        · intro x hx
          rcases List.mem_cons.1 hx with rfl | hx
          · exact hc
          · exact hall x hx
        · simpa [Nat.add_assoc, Nat.add_comm 1] using hk
      · exact ⟨[c], cs, by simp, by simp, by simpa using hc, by simpa using h⟩
    · rintro ⟨l, r, hl, hs, hall, hk⟩
      cases l with
      | nil => exact absurd rfl hl
      | cons x xs =>
        simp only [List.cons_append, List.cons.injEq] at hs
        obtain ⟨rfl, rfl⟩ := hs
        refine ⟨hall _ (List.mem_cons_self _ _), ?_⟩
        cases xs with
        | nil => right; simpa using hk
        | cons y ys =>
          left
          refine (ih (pos + 1)).2 ⟨y :: ys, r, by simp, rfl, ?_, ?_⟩
          · intro z hz
            exact hall z (List.mem_cons_of_mem _ hz)
          · simpa [Nat.add_assoc, Nat.add_comm 1] using hk

theorem matchAt_emailRegex_succ (pos : Nat) (rest : List Nat) :
    matchAt emailRegex (pos + 1) rest = false := by
  simp [matchAt, emailRegex, runTerms, Term.run]

theorem scanFrom_emailRegex_succ (rest : List Nat) (pos : Nat) :
    scanFrom emailRegex (pos + 1) rest = false := by
  induction rest generalizing pos with
  | nil => simp [scanFrom, matchAt_emailRegex_succ]
  | cons c cs ih => simp [scanFrom, matchAt_emailRegex_succ, ih]

theorem validateEmail_eq_matchAt (s : JSString) :
    validateEmail s = matchAt emailRegex 0 s := by
  cases s with
  | nil => simp [validateEmail, regexTest, scanFrom]
  | cons c cs => simp [validateEmail, regexTest, scanFrom, scanFrom_emailRegex_succ]

theorem validateEmail_iff_shape (s : JSString) : validateEmail s = true ↔ EmailShape s := by
  rw [validateEmail_eq_matchAt]
  simp only [matchAt, emailRegex, runTerms, Term.run, beq_self_eq_true, Bool.true_and]
  rw [plusLoop_iff]
  constructor
  · rintro ⟨l, r, hl, hs, hall, hk⟩
    cases r with
    | nil => simp [Term.run] at hk
    | cons x r1 =>
      simp only [Term.run, Atom.test, Bool.and_eq_true, beq_iff_eq] at hk
      obtain ⟨rfl, hk⟩ := hk
      rw [plusLoop_iff] at hk
      obtain ⟨d, r2, hd, hs2, hall2, hk2⟩ := hk
      cases r2 with
      | nil => simp [Term.run] at hk2
      | cons y r3 =>
        simp only [Term.run, Atom.test, Bool.and_eq_true, beq_iff_eq] at hk2
        obtain ⟨rfl, hk3⟩ := hk2
        rw [plusLoop_iff] at hk3
        obtain ⟨t, r4, ht, hs3, hall3, hk4⟩ := hk3
        have hk5 : r4 = [] := by
          cases r4 with
          | nil => rfl
          | cons z zs => simp [Term.run] at hk4
        subst hk5
        refine ⟨l, d, t, ?_, hl, hd, ht, ?_, ?_, ?_⟩
        · simp [hs, hs2, hs3]
        · exact fun c hc => (notSpaceAt_test c).1 (hall c hc)
        · exact fun c hc => (notSpaceAt_test c).1 (hall2 c hc)
        · exact fun c hc => (notSpaceAt_test c).1 (hall3 c hc)
  · rintro ⟨l, d, t, hs, hl, hd, ht, hall, hall2, hall3⟩
    refine ⟨l, 64 :: (d ++ 46 :: t), hl, by simp [hs], fun c hc => (notSpaceAt_test c).2 (hall c hc), ?_⟩
    simp only [Term.run, Atom.test, beq_self_eq_true, Bool.true_and]
    rw [plusLoop_iff]
    refine ⟨d, 46 :: t, hd, rfl, fun c hc => (notSpaceAt_test c).2 (hall2 c hc), ?_⟩
    simp only [Term.run, Atom.test, beq_self_eq_true, Bool.true_and]
    rw [plusLoop_iff]
    exact ⟨t, [], ht, by simp, fun c hc => (notSpaceAt_test c).2 (hall3 c hc), by simp [Term.run]⟩

theorem dropWhile_ne_append (l r : List Nat) (h : ∀ c ∈ l, c ≠ 64) :
    (l ++ 64 :: r).dropWhile (fun c => c != 64) = 64 :: r := by
  induction l with
  | nil => simp [List.dropWhile]
  | cons x xs ih =>
    have hx : x ≠ 64 := h x (List.mem_cons_self _ _)
    simp only [List.cons_append, List.dropWhile_cons, bne_iff_ne, ne_eq, hx, not_false_eq_true,
      ↓reduceIte]
    exact ih fun c hc => h c (List.mem_cons_of_mem _ hc)

theorem count_at_zero (l : List Nat) (h : ∀ c ∈ l, plainUnit c) : l.count 64 = 0 :=
  List.count_eq_zero.2 fun hm => (h 64 hm).2 rfl

theorem shape_imp_alt (s : JSString) (h : EmailShape s) : EmailShapeAlt s := by
  obtain ⟨l, d, t, rfl, hl, hd, ht, hall, hall2, hall3⟩ := h
  refine ⟨?_, ?_, ?_, d.length, ?_, ?_, ?_⟩
  · intro c hc
    simp only [List.mem_append, List.mem_singleton] at hc
    rcases hc with (((hc | rfl) | hc) | rfl) | hc
    · exact (hall c hc).1
    · decide
    · exact (hall2 c hc).1
    · decide
    · exact (hall3 c hc).1
  · simp [List.count_append, count_at_zero l hall, count_at_zero d hall2, count_at_zero t hall3]
  · cases l with
    | nil => exact absurd rfl hl
    | cons x xs =>
      have hx := (hall x (List.mem_cons_self _ _)).2
      simpa using hx
  · exact List.length_pos.2 hd
  · have : afterAt (l ++ [64] ++ d ++ [46] ++ t) = d ++ 46 :: t := by
      unfold afterAt
      have e : l ++ [64] ++ d ++ [46] ++ t = l ++ 64 :: (d ++ 46 :: t) := by simp
      rw [e, dropWhile_ne_append l _ fun c hc => (hall c hc).2]
      rfl
    rw [this]
    have := List.length_pos.2 ht
    simp
    omega
  · have : afterAt (l ++ [64] ++ d ++ [46] ++ t) = d ++ 46 :: t := by
      unfold afterAt
      have e : l ++ [64] ++ d ++ [46] ++ t = l ++ 64 :: (d ++ 46 :: t) := by simp
      rw [e, dropWhile_ne_append l _ fun c hc => (hall c hc).2]
      rfl
    rw [this, List.getElem?_append_right (Nat.le_refl _)]
    simp

theorem alt_imp_shape (s : JSString) (h : EmailShapeAlt s) : EmailShape s := by
  obtain ⟨hws, hcount, hhead, i, hi0, hi1, hi⟩ := h
  have hsplit := List.takeWhile_append_dropWhile (fun c => c != 64) s
  have hmem : 64 ∈ s := List.count_pos_iff.1 (by omega)
  have htake : ∀ c ∈ s.takeWhile (fun c => c != 64), c ≠ 64 := by
    intro c hc
    have := List.mem_takeWhile_imp hc
    simpa using this
  cases hdrop : s.dropWhile (fun c => c != 64) with
  | nil =>
    rw [hdrop, List.append_nil] at hsplit
    rw [← hsplit] at hmem
    exact absurd rfl (htake 64 hmem)
  | cons x rest =>
    have hx : x = 64 := by
      have := List.head_dropWhile_not (fun c => c != 64) s (by simp [hdrop])
      simpa [hdrop] using this
    subst hx
    have hafter : afterAt s = rest := by simp [afterAt, hdrop]
    rw [hafter] at hi1 hi
    rw [hdrop] at hsplit
    have hrest : rest.count 64 = 0 := by
      have hc := hcount
      rw [← hsplit, List.count_append, List.count_cons_self] at hc
      omega
    have hrest2 : ∀ c ∈ rest, c ≠ 64 := fun c hc e => List.count_eq_zero.1 hrest (e ▸ hc)
    have hilt : i < rest.length := by omega
    have hget : rest[i] = 46 := by
      rw [List.getElem?_eq_getElem hilt] at hi
      exact Option.some.inj hi
    have hrsplit : rest = rest.take i ++ 46 :: rest.drop (i + 1) := by
      rw [← hget, ← List.drop_eq_getElem_cons hilt, List.take_append_drop]
    have hsub : ∀ c ∈ rest, c ∈ s := by
      intro c hc
      rw [← hsplit]
      simp [hc]
    refine ⟨s.takeWhile (fun c => c != 64), rest.take i, rest.drop (i + 1), ?_, ?_, ?_, ?_, ?_, ?_, ?_⟩
    · have e : s.takeWhile (fun c => c != 64) ++ [64] ++ rest.take i ++ [46] ++ rest.drop (i + 1)
          = s.takeWhile (fun c => c != 64) ++ 64 :: (rest.take i ++ 46 :: rest.drop (i + 1)) := by
        simp
      rw [e, ← hrsplit, hsplit]
    · intro hnil
      rw [hnil, List.nil_append] at hsplit
      rw [← hsplit] at hhead
      simp at hhead
    · intro hnil
      rcases List.take_eq_nil_iff.1 hnil with h0 | h0
      · omega
      · rw [h0] at hilt
        simp at hilt
    · intro hnil
      have := List.drop_eq_nil_iff.1 hnil
      omega
    · intro c hc
      exact ⟨hws c (by rw [← hsplit]; simp [hc]), htake c hc⟩
    · intro c hc
      have hc2 := List.mem_of_mem_take hc
      exact ⟨hws c (hsub c hc2), hrest2 c hc2⟩
    · intro c hc
      have hc2 := List.mem_of_mem_drop hc
      exact ⟨hws c (hsub c hc2), hrest2 c hc2⟩

/-- C4: `validateEmail` returns true exactly for the strings of the shape
`local@domain.tld`, in both wordings: a non-empty local part, `@`, a
non-empty domain, `.`, a non-empty rest, none of the three containing
whitespace or `@`; equivalently no whitespace, exactly one `@`, not in first
place, and after it a `.` that is neither first nor last. -/
theorem validateEmail_iff_email_shape (s : JSString) :
    (validateEmail s = true ↔ EmailShape s) ∧ (validateEmail s = true ↔ EmailShapeAlt s) :=
  ⟨validateEmail_iff_shape s,
   (validateEmail_iff_shape s).trans ⟨shape_imp_alt s, alt_imp_shape s⟩⟩

theorem trim_nil_all_space (s : JSString) (h : trim s = []) : ∀ c ∈ s, isWhiteSpace c = true := by
  unfold trim trimEnd trimStart at h
  have h1 : (s.dropWhile isWhiteSpace).reverse.dropWhile isWhiteSpace = [] := by
    simpa using h
  have h2 : ∀ c ∈ s.dropWhile isWhiteSpace, isWhiteSpace c = true := by
    intro c hc
    exact List.dropWhile_eq_nil_iff.1 h1 c (List.mem_reverse.2 hc)
  intro c hc
  rw [← List.takeWhile_append_dropWhile isWhiteSpace s] at hc
  rcases List.mem_append.1 hc with hc | hc
  · exact List.mem_takeWhile_imp hc
  · exact h2 c hc

theorem trim_ne_nil_of_validateEmail (e : JSString) (h : validateEmail e = true) :
    (trim e).isEmpty = false := by
  obtain ⟨l, d, t, rfl, hl, -, -, hall, -, -⟩ := (validateEmail_iff_shape e).1 h
  cases l with
  | nil => exact absurd rfl hl
  | cons x xs =>
    have hx := (hall x (List.mem_cons_self _ _)).1
    cases htrim : trim (x :: xs ++ [64] ++ d ++ [46] ++ t) with
    | nil =>
      have := trim_nil_all_space _ htrim x (by simp)
      rw [hx] at this
      exact absurd this (by decide)
    | cons y ys => rfl

/-- C5: the email entry of the mapping `validateForm` computes is
'Email is required' when the email is empty after trimming, 'Please enter a
valid email address' when it is not empty after trimming and `validateEmail`
rejects it (as for "foo" and "foo@bar"), and absent when `validateEmail`
accepts it (as for "user@example.com"); it is the same for two states with
the same email, whatever their passwords. -/
theorem validateForm_email_entry (st : State) :
    ((trim st.formData.email = [] →
        (validateForm st).1.errors.email = some (js "Email is required")) ∧
     (trim st.formData.email ≠ [] → validateEmail st.formData.email = false →
        (validateForm st).1.errors.email = some (js "Please enter a valid email address")) ∧
     (validateEmail st.formData.email = true → (validateForm st).1.errors.email = none)) ∧
    (∀ st2 : State, st2.formData.email = st.formData.email →
        (validateForm st2).1.errors.email = (validateForm st).1.errors.email) ∧
    (∀ p : JSString,
        (validateForm { st with formData := { email := js "foo", password := p } }).1.errors.email
          = some (js "Please enter a valid email address") ∧
        (validateForm { st with formData := { email := js "foo@bar", password := p } }).1.errors.email
          = some (js "Please enter a valid email address") ∧
        (validateForm { st with formData := { email := js "user@example.com", password := p } }).1.errors.email
          = none) := by
  refine ⟨⟨?_, ?_, ?_⟩, ?_, ?_⟩
  · intro h
    simp [validateForm, newErrors, h]
  · intro h1 h2
    have h3 : (trim st.formData.email).isEmpty = false := by
      cases hx : trim st.formData.email with
      | nil => exact absurd hx h1
      | cons y ys => rfl
    simp [validateForm, newErrors, h3, h2]
  · intro h
    simp [validateForm, newErrors, trim_ne_nil_of_validateEmail _ h, h]
  · intro st2 h
    simp [validateForm, newErrors, h]
  · intro p
    refine ⟨?_, ?_, ?_⟩
    · rfl
    · rfl
    · rfl

theorem validateForm_email_entry_witness :
    (validateForm { initialState with
        formData := { email := js "  ", password := [] } }).1.errors.email
      = some (js "Email is required") ∧
    (validateForm filledState).1.errors.email = none :=
  ⟨(validateForm_email_entry { initialState with
      formData := { email := js "  ", password := [] } }).1.1 (by decide),
   (validateForm_email_entry filledState).1.2.2 (by decide)⟩

theorem getItem_setItemIn_same (s : List (JSString × JSString)) (k v : JSString) :
    getItem (setItemIn s k v) k = some v := by
  induction s with
  | nil => simp [setItemIn, getItem]
  | cons p rest ih =>
    obtain ⟨k1, v1⟩ := p
    by_cases h : k1 = k
    · simp [setItemIn, getItem, h]
    · simp [setItemIn, getItem, h, ih]

theorem getItem_setItemIn_ne (s : List (JSString × JSString)) (k v k2 : JSString) (hne : k2 ≠ k) :
    getItem (setItemIn s k v) k2 = getItem s k2 := by
  induction s with
  | nil => simp [setItemIn, getItem, Ne.symm hne]
  | cons p rest ih =>
    obtain ⟨k1, v1⟩ := p
    by_cases h : k1 = k
    · subst h
      simp [setItemIn, getItem, Ne.symm hne]
    · by_cases h2 : k1 = k2
      · subst h2
        simp [setItemIn, getItem, hne]
      · simp [setItemIn, getItem, h, h2, ih]

theorem handleSubmit_of_pass (baseUrl : JSString) (net : Request → Outcome) (st : State)
    (w : World) (h : (validateForm st).2 = true) :
    handleSubmit baseUrl net st w =
      handleSubmitResume (net (loginRequest baseUrl st.formData))
        { (validateForm st).1 with isLoading := true }
        { w with requests := w.requests ++ [loginRequest baseUrl st.formData] } := by
  simp [handleSubmit, handleSubmitStart, h]

theorem handleSubmit_of_fail (baseUrl : JSString) (net : Request → Outcome) (st : State)
    (w : World) (h : (validateForm st).2 = false) :
    handleSubmit baseUrl net st w = ((validateForm st).1, w) := by
  simp [handleSubmit, handleSubmitStart, h]

theorem tryBody_skip (r : Response) (w : World)
    (h : (toBoolean r.data && toBoolean (getProp r.data (js "success"))) = false) :
    tryBody r w = (w, none) := by
  simp [tryBody, h]

theorem tryBody_throw (r : Response) (w : World)
    (h : (toBoolean r.data && toBoolean (getProp r.data (js "success"))) = true)
    (hbad : isNullish (getProp r.data (js "data")) = true ∨
      isNullish (getProp (getProp r.data (js "data")) (js "user")) = true) :
    tryBody r w = (w, some .typeError) := by
  unfold tryBody
  rw [if_pos h]
  by_cases h1 : isNullish (getProp r.data (js "data")) = true
  · simp [member, h1]
  · have h2 : isNullish (getProp (getProp r.data (js "data")) (js "user")) = true := by
      rcases hbad with hb | hb
      · exact absurd hb h1
      · exact hb
    simp [member, h1, h2]

theorem tryBody_success (r : Response) (w : World)
    (h : (toBoolean r.data && toBoolean (getProp r.data (js "success"))) = true)
    (h1 : isNullish (getProp r.data (js "data")) = false)
    (h2 : isNullish (getProp (getProp r.data (js "data")) (js "user")) = false) :
    tryBody r w =
      (((((w.setItem (js "accessToken")
            (getProp (getProp (getProp r.data (js "data")) (js "user")) (js "accessToken"))).setItem
          (js "refreshToken")
            (getProp (getProp (getProp r.data (js "data")) (js "user")) (js "refreshToken"))).setItem
          (js "userdata") (jsonStringifyVal (getProp r.data (js "data")))).toast .success
          (.str (js "Welcome back, " ++
            toStr (getProp (getProp (getProp r.data (js "data")) (js "user")) (js "name")) ++
            js "!")) 3000).setTimeout [.navigate (js "/Home"), .reload] 1000, none) := by
  unfold tryBody
  rw [if_pos h]
  simp [member, h1, h2]

theorem tryBody_requests (r : Response) (w : World) : (tryBody r w).1.requests = w.requests := by
  by_cases h : (toBoolean r.data && toBoolean (getProp r.data (js "success"))) = true
  · by_cases h1 : isNullish (getProp r.data (js "data")) = true
    · rw [tryBody_throw r w h (Or.inl h1)]
    · by_cases h2 : isNullish (getProp (getProp r.data (js "data")) (js "user")) = true
      · rw [tryBody_throw r w h (Or.inr h2)]
      · rw [tryBody_success r w h (by simpa using h1) (by simpa using h2)]
        rfl
  · rw [tryBody_skip r w (by simpa using h)]

theorem handleSubmitResume_requests (o : Outcome) (st : State) (w : World) :
    (handleSubmitResume o st w).2.requests = w.requests := by
  cases o with
  | resolved r =>
    simp only [handleSubmitResume]
    split
    · exact tryBody_requests r w
    · simp [catchBlock, World.consoleError, World.toast, tryBody_requests]
  | rejected e => rfl

theorem handleSubmitResume_isLoading (o : Outcome) (st : State) (w : World) :
    (handleSubmitResume o st w).1 = { st with isLoading := false } := rfl

theorem tryBody_throws_iff (r : Response) (w : World) (e : JSError) :
    (tryBody r w).2 = some e ↔
      ((toBoolean r.data && toBoolean (getProp r.data (js "success"))) = true ∧
        (isNullish (getProp r.data (js "data")) = true ∨
          isNullish (getProp (getProp r.data (js "data")) (js "user")) = true) ∧
        e = .typeError) := by
  by_cases h : (toBoolean r.data && toBoolean (getProp r.data (js "success"))) = true
  · by_cases h1 : isNullish (getProp r.data (js "data")) = true
    · rw [tryBody_throw r w h (Or.inl h1)]
      constructor
      · intro he
        exact ⟨h, Or.inl h1, (Option.some.inj he).symm⟩
      · rintro ⟨-, -, rfl⟩
        rfl
    · by_cases h2 : isNullish (getProp (getProp r.data (js "data")) (js "user")) = true
      · rw [tryBody_throw r w h (Or.inr h2)]
        constructor
        · intro he
          exact ⟨h, Or.inr h2, (Option.some.inj he).symm⟩
        · rintro ⟨-, -, rfl⟩
          rfl
      · rw [tryBody_success r w h (by simpa using h1) (by simpa using h2)]
        constructor
        · intro he
          cases he
        · rintro ⟨-, hb | hb, -⟩
          · exact absurd hb h1
          · exact absurd hb h2
  · rw [tryBody_skip r w (by simpa using h)]
    constructor
    · intro he
      cases he
    · rintro ⟨hg, -, -⟩
      exact absurd hg h

/-- C1: when `validateForm` passes, a run of `handleSubmit` adds exactly one
POST, to `baseUrl` followed by `/api/v1/user/login`, whose body is the
form's email and password; when it fails, which is when the email or the
password has an entry in the mapping, the run changes nothing but `errors`:
no request, no write to the store, no toast, and `isLoading` stays false. -/
theorem handleSubmit_posts_iff_valid (baseUrl : JSString) (net : Request → Outcome) (st : State)
    (w : World) :
    ((validateForm st).2 = true →
      (handleSubmit baseUrl net st w).2.requests =
        w.requests ++
          [({ url := baseUrl ++ js "/api/v1/user/login"
              body := .obj [(js "email", .str st.formData.email),
                            (js "password", .str st.formData.password)] } : Request)]) ∧
    ((validateForm st).2 = false →
      handleSubmit baseUrl net st w = ({ st with errors := (validateForm st).1.errors }, w) ∧
      (handleSubmit baseUrl net st w).2.requests = w.requests ∧
      (handleSubmit baseUrl net st w).2.storage = w.storage ∧
      (handleSubmit baseUrl net st w).2.toasts = w.toasts ∧
      (st.isLoading = false → (handleSubmit baseUrl net st w).1.isLoading = false)) ∧
    ((validateForm st).2 = false ↔
      ((validateForm st).1.errors.email ≠ none ∨ (validateForm st).1.errors.password ≠ none)) := by
  refine ⟨?_, ?_, ?_⟩
  · intro h
    rw [handleSubmit_of_pass baseUrl net st w h, handleSubmitResume_requests]
    rfl
  · intro h
    rw [handleSubmit_of_fail baseUrl net st w h]
    exact ⟨rfl, rfl, rfl, rfl, fun h0 => h0⟩
  · simp only [validateForm, Errors.noKeys]
    cases (newErrors st.formData).email <;> cases (newErrors st.formData).password <;> simp

theorem handleSubmit_posts_iff_valid_witness :
    ((validateForm filledState).2 = true ∧
      (handleSubmit (js "https://api.test") (fun _ => .rejected .typeError) filledState
          freshWorld).2.requests =
        freshWorld.requests ++
          [({ url := js "https://api.test" ++ js "/api/v1/user/login"
              body := .obj [(js "email", .str filledState.formData.email),
                            (js "password", .str filledState.formData.password)] } : Request)]) ∧
    ((validateForm initialState).2 = false ∧
      (handleSubmit (js "https://api.test") (fun _ => .rejected .typeError) initialState
          freshWorld).2.requests = freshWorld.requests) :=
  ⟨⟨by decide,
    (handleSubmit_posts_iff_valid (js "https://api.test") (fun _ => .rejected .typeError)
      filledState freshWorld).1 (by decide)⟩,
   ⟨by decide,
    ((handleSubmit_posts_iff_valid (js "https://api.test") (fun _ => .rejected .typeError)
      initialState freshWorld).2.1 (by decide)).2.1⟩⟩

theorem object_of_getProp (v : JSVal) (k : JSString) (h : getProp v k ≠ .undefined) :
    toBoolean v = true ∧ isNullish v = false := by
  cases v <;> first | exact absurd rfl h | simp [toBoolean, isNullish]

theorem accessToken_ne_refreshToken : js "accessToken" ≠ js "refreshToken" := by decide

theorem accessToken_ne_userdata : js "accessToken" ≠ js "userdata" := by decide

theorem refreshToken_ne_userdata : js "refreshToken" ≠ js "userdata" := by decide

/-- C2: on a valid form and a resolved response whose body has `success`
true and `data.user` with the strings `name`, `accessToken`, `refreshToken`,
after `handleSubmit` the store holds both tokens under their keys, whatever
it held before, exactly one toast was added, a success toast reading
'Welcome back, name!', no error toast was added, and one timer of 1000 ms was
set whose callback navigates to '/Home' and then reloads; nothing has been
navigated to yet. -/
theorem handleSubmit_success (baseUrl : JSString) (net : Request → Outcome) (st : State)
    (w : World) (body : JSVal) (name accessToken refreshToken : JSString)
    (hvalid : (validateForm st).2 = true)
    (hnet : net (loginRequest baseUrl st.formData) = .resolved { data := body })
    (hsuccess : getProp body (js "success") = .bool true)
    (hname : getProp (getProp (getProp body (js "data")) (js "user")) (js "name") = .str name)
    (haccess : getProp (getProp (getProp body (js "data")) (js "user")) (js "accessToken")
      = .str accessToken)
    (hrefresh : getProp (getProp (getProp body (js "data")) (js "user")) (js "refreshToken")
      = .str refreshToken) :
    getItem (handleSubmit baseUrl net st w).2.storage (js "accessToken") = some accessToken ∧
    getItem (handleSubmit baseUrl net st w).2.storage (js "refreshToken") = some refreshToken ∧
    (handleSubmit baseUrl net st w).2.toasts =
      w.toasts ++
        [({ kind := .success, message := .str (js "Welcome back, " ++ name ++ js "!"),
            duration := 3000 } : Toast)] ∧
    (handleSubmit baseUrl net st w).2.toastsOf .error = w.toastsOf .error ∧
    (handleSubmit baseUrl net st w).2.timers =
      w.timers ++ [({ callback := [.navigate (js "/Home"), .reload], delay := 1000 } : Timer)] ∧
    (handleSubmit baseUrl net st w).2.navigations = w.navigations ∧
    (handleSubmit baseUrl net st w).2.reloads = w.reloads := by
  have hbody := object_of_getProp body (js "success") (by rw [hsuccess]; simp)
  have huser := object_of_getProp (getProp (getProp body (js "data")) (js "user")) (js "name")
    (by rw [hname]; simp)
  have hdata := object_of_getProp (getProp body (js "data")) (js "user")
    (by intro h; rw [h] at hname; simp [getProp] at hname)
  have hguard : (toBoolean body && toBoolean (getProp body (js "success"))) = true := by
    rw [hbody.1, hsuccess]
    rfl
  rw [handleSubmit_of_pass baseUrl net st w hvalid, hnet]
  simp only [handleSubmitResume]
  rw [tryBody_success _ _ hguard hdata.2 huser.2]
  rw [hname, haccess, hrefresh]
  refine ⟨?_, ?_, rfl, ?_, rfl, rfl, rfl⟩
  · show getItem (setItemIn (setItemIn (setItemIn _ _ _) _ _) _ _) _ = _
    rw [getItem_setItemIn_ne _ _ _ _ accessToken_ne_userdata,
      getItem_setItemIn_ne _ _ _ _ accessToken_ne_refreshToken, getItem_setItemIn_same]
    rfl
  · show getItem (setItemIn (setItemIn (setItemIn _ _ _) _ _) _ _) _ = _
    rw [getItem_setItemIn_ne _ _ _ _ refreshToken_ne_userdata, getItem_setItemIn_same]
    rfl
  · show List.filter _ (_ ++ [_]) = _
    rw [List.filter_append]
    simp [World.setItem, World.toastsOf]

theorem handleSubmit_success_witness :
    getItem (handleSubmit (js "https://api.test") (fun _ => .resolved { data := aliceBody })
        filledState freshWorld).2.storage (js "accessToken") = some (js "A") ∧
    getItem (handleSubmit (js "https://api.test") (fun _ => .resolved { data := aliceBody })
        filledState freshWorld).2.storage (js "refreshToken") = some (js "R") ∧
    (handleSubmit (js "https://api.test") (fun _ => .resolved { data := aliceBody })
        filledState freshWorld).2.toasts =
      freshWorld.toasts ++
        [({ kind := .success, message := .str (js "Welcome back, " ++ js "Alice" ++ js "!"),
            duration := 3000 } : Toast)] :=
  have h := handleSubmit_success (js "https://api.test")
    (fun _ => .resolved { data := aliceBody }) filledState freshWorld aliceBody (js "Alice")
    (js "A") (js "R") (by decide) rfl rfl rfl rfl rfl
  ⟨h.1, h.2.1, h.2.2.1⟩

/-- C6 as stated fails: the empty password has length 0, less than 6, and its
entry is 'Password is required', not the "too short" text. -/
theorem empty_password_is_required :
    ([] : JSString).length < 6 ∧
    (validateForm { initialState with
        formData := { email := js "user@example.com", password := [] } }).1.errors.password
      = some (js "Password is required") ∧
    js "Password is required" ≠ js "Password must be at least 6 characters" := by
  decide

/-- C6 amended: for every password that is not empty and has fewer than 6
code units, `validateForm` gives the entry 'Password must be at least 6
characters'; for "secret1" it gives no password entry. -/
theorem validateForm_password_too_short (st : State) :
    (st.formData.password ≠ [] → st.formData.password.length < 6 →
      (validateForm st).1.errors.password = some (js "Password must be at least 6 characters")) ∧
    (st.formData.password = js "secret1" → (validateForm st).1.errors.password = none) := by
  constructor
  · intro h1 h2
    have h3 : st.formData.password.isEmpty = false := by
      cases hp : st.formData.password with
      | nil => exact absurd hp h1
      | cons c cs => rfl
    simp [validateForm, newErrors, h3, h2]
  · intro h
    simp only [validateForm, newErrors, h]
    rfl

theorem validateForm_password_too_short_witness :
    (validateForm { initialState with
        formData := { email := [], password := js "abc" } }).1.errors.password
      = some (js "Password must be at least 6 characters") ∧
    (validateForm filledState).1.errors.password = none :=
  ⟨(validateForm_password_too_short { initialState with
      formData := { email := [], password := js "abc" } }).1 (by decide) (by decide),
   (validateForm_password_too_short filledState).2 rfl⟩

theorem guard_false_of_absent (body : JSVal)
    (h : body = .undefined ∨ body = .null ∨ getProp body (js "success") = .undefined ∨
      getProp body (js "success") = .bool false) :
    (toBoolean body && toBoolean (getProp body (js "success"))) = false := by
  rcases h with h | h | h | h
  · subst h
    rfl
  · subst h
    rfl
  · rw [h]
    simp [toBoolean]
  · rw [h]
    simp [toBoolean]

/-- C8: on a valid form and a resolved response whose body is absent
(`undefined` or `null`) or whose `success` is absent or `false`,
`handleSubmit` writes nothing to the store, raises no toast, sets no timer,
navigates nowhere, logs nothing, leaves email and password as they were and
ends with `isLoading` false. -/
theorem handleSubmit_no_success_flag (baseUrl : JSString) (net : Request → Outcome) (st : State)
    (w : World) (body : JSVal)
    (hvalid : (validateForm st).2 = true)
    (hnet : net (loginRequest baseUrl st.formData) = .resolved { data := body })
    (habsent : body = .undefined ∨ body = .null ∨ getProp body (js "success") = .undefined ∨
      getProp body (js "success") = .bool false) :
    (handleSubmit baseUrl net st w).2.storage = w.storage ∧
    (handleSubmit baseUrl net st w).2.toasts = w.toasts ∧
    (handleSubmit baseUrl net st w).2.timers = w.timers ∧
    (handleSubmit baseUrl net st w).2.navigations = w.navigations ∧
    (handleSubmit baseUrl net st w).2.reloads = w.reloads ∧
    (handleSubmit baseUrl net st w).2.console = w.console ∧
    (handleSubmit baseUrl net st w).1.formData = st.formData ∧
    (handleSubmit baseUrl net st w).1.isLoading = false := by
  have hrun : handleSubmit baseUrl net st w =
      ({ (validateForm st).1 with isLoading := false },
        { w with requests := w.requests ++ [loginRequest baseUrl st.formData] }) := by
    rw [handleSubmit_of_pass baseUrl net st w hvalid, hnet]
    simp only [handleSubmitResume]
    rw [tryBody_skip _ _ (guard_false_of_absent body habsent)]
  rw [hrun]
  exact ⟨rfl, rfl, rfl, rfl, rfl, rfl, rfl, rfl⟩

theorem handleSubmit_no_success_flag_witness :
    (handleSubmit (js "https://api.test")
        (fun _ => .resolved { data := .obj [(js "success", .bool false)] }) filledState
        freshWorld).2.storage = freshWorld.storage ∧
    (handleSubmit (js "https://api.test")
        (fun _ => .resolved { data := .obj [(js "success", .bool false)] }) filledState
        freshWorld).2.toasts = freshWorld.toasts ∧
    (handleSubmit (js "https://api.test")
        (fun _ => .resolved { data := .obj [(js "success", .bool false)] }) filledState
        freshWorld).1.isLoading = false :=
  have h := handleSubmit_no_success_flag (js "https://api.test")
    (fun _ => .resolved { data := .obj [(js "success", .bool false)] }) filledState freshWorld
    (.obj [(js "success", .bool false)]) (by decide) rfl (Or.inr (Or.inr (Or.inr rfl)))
  ⟨h.1, h.2.1, h.2.2.2.2.2.2.2⟩

/-- C9 as stated fails: after a successful login has settled, with its timer
set and the navigation still to come, `isLoading` is false and the submit
button is enabled. -/
theorem form_enabled_in_delay_window :
    (run (js "https://api.test") (initialPage [])
        [.change .email (js "user@example.com"), .change .password (js "secret1"), .submit,
         .settle (.resolved { data := aliceBody })]).state.isLoading = false ∧
    (render (run (js "https://api.test") (initialPage [])
        [.change .email (js "user@example.com"), .change .password (js "secret1"), .submit,
         .settle (.resolved { data := aliceBody })]).state).submitDisabled = false ∧
    (run (js "https://api.test") (initialPage [])
        [.change .email (js "user@example.com"), .change .password (js "secret1"), .submit,
         .settle (.resolved { data := aliceBody })]).world.timers =
      [{ callback := [.navigate (js "/Home"), .reload], delay := 1000 }] ∧
    (run (js "https://api.test") (initialPage [])
        [.change .email (js "user@example.com"), .change .password (js "secret1"), .submit,
         .settle (.resolved { data := aliceBody })]).world.navigations = [] := by
  decide

/-- C9 amended: after every submission attempt concludes, a successful login
included, `isLoading` is false and the submit button is enabled again; the
navigation has not happened at that point. -/
theorem isLoading_reset_after_every_attempt (baseUrl : JSString) (net : Request → Outcome)
    (st : State) (w : World) (p : Page) (o : Outcome) :
    ((validateForm st).2 = true →
      (handleSubmit baseUrl net st w).1.isLoading = false ∧
      (render (handleSubmit baseUrl net st w).1).submitDisabled = false) ∧
    (p.loaded = true → p.pending ≠ [] →
      (step baseUrl p (.settle o)).state.isLoading = false ∧
      (render (step baseUrl p (.settle o)).state).submitDisabled = false ∧
      (step baseUrl p (.settle o)).world.navigations = p.world.navigations) := by
  constructor
  · intro h
    rw [handleSubmit_of_pass baseUrl net st w h]
    exact ⟨rfl, rfl⟩
  · intro h1 h2
    cases hp : p.pending with
    | nil => exact absurd hp h2
    | cons r rest =>
      simp only [step, h1, hp]
      refine ⟨rfl, rfl, ?_⟩
      cases o with
      | rejected e => rfl
      | resolved r =>
        simp only [handleSubmitResume]
        by_cases h : (toBoolean r.data && toBoolean (getProp r.data (js "success"))) = true
        · by_cases h3 : isNullish (getProp r.data (js "data")) = true
          · rw [tryBody_throw r _ h (Or.inl h3)]
            rfl
          · by_cases h4 : isNullish (getProp (getProp r.data (js "data")) (js "user")) = true
            · rw [tryBody_throw r _ h (Or.inr h4)]
              rfl
            · rw [tryBody_success r _ h (by simpa using h3) (by simpa using h4)]
              rfl
        · rw [tryBody_skip r _ (by simpa using h)]
          rfl

theorem isLoading_reset_after_every_attempt_witness :
    (handleSubmit (js "https://api.test") (fun _ => .resolved { data := aliceBody }) filledState
        freshWorld).1.isLoading = false ∧
    (render (handleSubmit (js "https://api.test") (fun _ => .resolved { data := aliceBody })
        filledState freshWorld).1).submitDisabled = false :=
  (isLoading_reset_after_every_attempt (js "https://api.test")
    (fun _ => .resolved { data := aliceBody }) filledState freshWorld (initialPage [])
    (.resolved { data := aliceBody })).1 (by decide)

theorem handleChange_isLoading (name : Field) (value : JSString) (st : State) :
    (handleChange name value st).isLoading = st.isLoading := rfl

theorem runEffect_inv (p : Page) (e : Effect) (h : PageInv p) : PageInv (runEffect p e) := by
  cases e with
  | navigate path => exact h
  | reload => exact ⟨fun hl => by simp [runEffect] at hl, fun _ => rfl⟩

theorem foldl_runEffect_inv (es : List Effect) (p : Page) (h : PageInv p) :
    PageInv (es.foldl runEffect p) := by
  induction es generalizing p with
  | nil => exact h
  | cons e rest ih => exact ih _ (runEffect_inv p e h)

theorem step_inv (baseUrl : JSString) (p : Page) (e : Event) (h : PageInv p) :
    PageInv (step baseUrl p e) := by
  cases hl : p.loaded with
  | false =>
    have : step baseUrl p e = p := by
      cases e <;> simp [step, hl]
    rw [this]
    exact h
  | true =>
    have hlen := h.1 hl
    cases e with
    | change name value =>
      simp only [step, hl]
      split
      · exact h
      · exact ⟨fun _ => by simpa [handleChange_isLoading] using hlen, fun hf => by simp [hl] at hf⟩
    | toggleShowPassword =>
      simp only [step, hl]
      split
      · exact h
      · exact ⟨fun _ => by simpa using hlen, fun hf => by simp [hl] at hf⟩
    | submit =>
      cases hload : p.state.isLoading with
      | true =>
        have : step baseUrl p .submit = p := by simp [step, render, hload]
        rw [this]
        exact h
      | false =>
        rw [hload] at hlen
        have hnil : p.pending = [] := List.length_eq_zero.1 (by simpa using hlen)
        cases hv : (validateForm p.state).2 with
        | true =>
          refine ⟨fun _ => ?_, fun hf => ?_⟩
          · simp [step, hl, render, hload, handleSubmitStart, hv, hnil]
          · simp [step, hl, render, hload] at hf
        | false =>
          refine ⟨fun _ => ?_, fun hf => ?_⟩
          · have hv2 : (newErrors p.state.formData).noKeys = false := hv
            simp [step, hl, render, hload, handleSubmitStart, hv2, hnil, validateForm]
          · simp [step, hl, render, hload] at hf
    | settle o =>
      cases hp : p.pending with
      | nil =>
        have : step baseUrl p (.settle o) = p := by simp [step, hl, hp]
        rw [this]
        exact h
      | cons r rest =>
        have hrest : rest = [] := by
          rw [hp] at hlen
          cases hload : p.state.isLoading with
          | true =>
            rw [hload] at hlen
            exact List.length_eq_zero.1 (by simpa using hlen)
          | false =>
            rw [hload] at hlen
            simp at hlen
        subst hrest
        refine ⟨fun _ => ?_, fun hf => ?_⟩
        · simp [step, hl, hp, handleSubmitResume]
        · simp [step, hl, hp] at hf
    | timeout =>
      cases ht : p.world.timers with
      | nil =>
        have : step baseUrl p .timeout = p := by simp [step, hl, ht]
        rw [this]
        exact h
      | cons t rest =>
        have : step baseUrl p .timeout =
            t.callback.foldl runEffect { p with world := { p.world with timers := rest } } := by
          simp [step, hl, ht]
        rw [this]
        exact foldl_runEffect_inv _ _ h

theorem run_inv (baseUrl : JSString) (events : List Event) (p : Page) (h : PageInv p) :
    PageInv (run baseUrl p events) := by
  induction events generalizing p with
  | nil => exact h
  | cons e rest ih => exact ih _ (step_inv baseUrl p e h)

theorem initialPage_inv (storage : List (JSString × JSString)) : PageInv (initialPage storage) :=
  ⟨fun _ => rfl, fun hf => by simp [initialPage] at hf⟩

theorem pageInv_length_le (p : Page) (h : PageInv p) : p.pending.length ≤ 1 := by
  cases hl : p.loaded with
  | false => simp [h.2 hl]
  | true =>
    have := h.1 hl
    split at this <;> omega

/-- The handler has no guard of its own: called on a valid form while
`isLoading` is set, it issues a POST. -/
theorem handleSubmitStart_ignores_isLoading :
    (handleSubmitStart (js "https://api.test") { filledState with isLoading := true }
        freshWorld).2.1.requests.length = 1 := by
  decide

/-- C7: in a state with `isLoading` set a submit of the form changes nothing,
so it issues no POST; and in every state the page reaches from its initial
state at most one request is in flight, exactly one while `isLoading` is set
and the document is loaded. -/
theorem at_most_one_request_in_flight (baseUrl : JSString) (p : Page)
    (storage : List (JSString × JSString)) (events : List Event) :
    (p.state.isLoading = true →
      step baseUrl p .submit = p ∧
      (step baseUrl p .submit).world.requests = p.world.requests ∧
      (step baseUrl p .submit).pending = p.pending) ∧
    (run baseUrl (initialPage storage) events).pending.length ≤ 1 ∧
    ((run baseUrl (initialPage storage) events).loaded = true →
      ((run baseUrl (initialPage storage) events).state.isLoading = true ↔
        (run baseUrl (initialPage storage) events).pending.length = 1)) := by
  have hinv := run_inv baseUrl events _ (initialPage_inv storage)
  refine ⟨fun h => ?_, pageInv_length_le _ hinv, fun hl => ?_⟩
  · have : step baseUrl p .submit = p := by simp [step, render, h]
    rw [this]
    exact ⟨rfl, rfl, rfl⟩
  · have := hinv.1 hl
    cases hload : (run baseUrl (initialPage storage) events).state.isLoading with
    | true =>
      rw [hload] at this
      simpa using this
    | false =>
      rw [hload] at this
      simp at this
      simp [this]

theorem at_most_one_request_in_flight_witness :
    (run (js "https://api.test") (initialPage [])
        [.change .email (js "user@example.com"), .change .password (js "secret1"),
         .submit]).state.isLoading = true ∧
    (run (js "https://api.test") (initialPage [])
        [.change .email (js "user@example.com"), .change .password (js "secret1"),
         .submit]).world.requests.length = 1 ∧
    (step (js "https://api.test") (run (js "https://api.test") (initialPage [])
        [.change .email (js "user@example.com"), .change .password (js "secret1"),
         .submit]) .submit).world.requests =
      (run (js "https://api.test") (initialPage [])
        [.change .email (js "user@example.com"), .change .password (js "secret1"),
         .submit]).world.requests :=
  ⟨by decide, by decide,
   ((at_most_one_request_in_flight (js "https://api.test")
      (run (js "https://api.test") (initialPage [])
        [.change .email (js "user@example.com"), .change .password (js "secret1"), .submit])
      [] []).1 (by decide)).2.1⟩

end Login
